import Mathlib

/-!
Shallow embedding of the user domain module of the go-fiber-gorm-starter
repository (handler → service → repository → database), together with the
constraints of the users table declared by the migration
(migrations/0001_create_users_table): primary-key auto increment, the unique
index on email, and the chk_users_status CHECK constraint.

Modelling conventions:
* the database is a list of rows plus a monotone clock used to stamp
  created_at and deleted_at (updated_at is maintained by the persistence
  layer and no claim depends on it, so it is not modelled);
* Go errors are a message string plus the list of sentinel errors reachable
  through errors.Unwrap: fmt.Errorf with a %%w verb keeps the wrapped chain,
  fmt.Errorf without it drops the chain, and errors.Is is chain membership;
* Go string operations len and s[:n] act on bytes while the Lean model uses
  characters; every string these handlers slice or measure starts with a
  fixed ASCII prefix longer than the sliced length, so byte and character
  indexing agree on all reachable inputs;
* connectivity failures of the database driver are not modelled, so the Go
  branches that only handle those failures collapse;
* SQL string comparison is modelled as exact (case-sensitive) equality and
  LOWER as ASCII lowercasing, the semantics of the PostgreSQL configuration
  the repository supports.
-/

namespace Spindle

/-- Status enumeration from model.go (type Status string). -/
abbrev Status := String

/-- StatusActive constant from model.go. -/
def StatusActive : Status := "active"

/-- StatusInactive constant from model.go. -/
def StatusInactive : Status := "inactive"

/-- StatusSuspended constant from model.go. -/
def StatusSuspended : Status := "suspended"

/-- User model from model.go. ID is the surrogate key, DeletedAt marks a
soft-deleted row, CreatedAt is the insertion timestamp. -/
structure User where
  ID : Nat
  Name : String
  Email : String
  Status : Spindle.Status
  CreatedAt : Nat
  DeletedAt : Option Nat
deriving DecidableEq, Repr

/-- BeforeCreate hook from model.go: default the status to active when it is
empty. GORM runs this hook inside db.Create. -/
def User.BeforeCreate (u : User) : User :=
  if u.Status == "" then { u with Status := StatusActive } else u

/-- CreateUserRequest from model.go. -/
structure CreateUserRequest where
  Name : String
  Email : String
  Status : Spindle.Status
deriving DecidableEq, Repr

/-- ToUser from model.go: build a User from a create request, defaulting the
status to active when the request leaves it empty. -/
def CreateUserRequest.ToUser (r : CreateUserRequest) : User :=
  { ID := 0
    Name := r.Name
    Email := r.Email
    Status := if r.Status != "" then r.Status else StatusActive
    CreatedAt := 0
    DeletedAt := none }

/-- UpdateUserRequest from model.go: all fields are optional pointers. -/
structure UpdateUserRequest where
  Name : Option String
  Email : Option String
  Status : Option Spindle.Status
deriving DecidableEq, Repr

/-- ApplyTo from model.go: overwrite exactly the fields whose request
pointer is non-nil. -/
def UpdateUserRequest.ApplyTo (r : UpdateUserRequest) (u : User) : User :=
  let u := match r.Name with
    | some n => { u with Name := n }
    | none => u
  let u := match r.Email with
    | some em => { u with Email := em }
    | none => u
  match r.Status with
  | some st => { u with Status := st }
  | none => u

/-- ListUsersQuery from model.go. Offset and Limit are Go int values. -/
structure ListUsersQuery where
  Offset : Int
  Limit : Int
  Status : Spindle.Status
  Search : String
deriving DecidableEq, Repr

/-- Validate from model.go: clamp an out-of-range limit to 20 and a negative
offset to 0. -/
def ListUsersQuery.Validate (q : ListUsersQuery) : ListUsersQuery :=
  let q := if q.Limit ≤ 0 ∨ 100 < q.Limit then { q with Limit := 20 } else q
  if q.Offset < 0 then { q with Offset := 0 } else q

/-! ### Go error values -/

/-- Sentinel errors of the object-relational mapper that the handlers probe
with errors.Is. -/
inductive Sentinel where
  | recordNotFound
  | duplicatedKey
deriving DecidableEq, Repr

/-- A Go error value: its message plus the sentinels reachable through
errors.Unwrap. -/
structure GoErr where
  msg : String
  wraps : List Sentinel
deriving DecidableEq, Repr

/-- fmt.Errorf without a %%w verb: fresh error, empty unwrap chain. -/
def newErr (msg : String) : GoErr := ⟨msg, []⟩

/-- fmt.Errorf with a trailing %%w verb: prepend context, keep the chain. -/
def wrapErr (ctx : String) (e : GoErr) : GoErr := ⟨ctx ++ e.msg, e.wraps⟩

/-- errors.Is: membership of a sentinel in the unwrap chain. -/
def GoErr.errorsIs (e : GoErr) (s : Sentinel) : Bool := e.wraps.contains s

/-! ### Database semantics (GORM soft-delete scope plus the migration's
schema constraints) -/

/-- Failures surfaced by a single database call. -/
inductive DBFail where
  | recordNotFound
  | constraintViolation (desc : String)
deriving DecidableEq, Repr

/-- Message text of a database failure. gorm.ErrRecordNotFound prints as
"record not found"; a constraint violation prints the driver text. -/
def DBFail.errMsg : DBFail → String
  | .recordNotFound => "record not found"
  | .constraintViolation d => d

/-- Sentinels wrapped by a database failure. Constraint violations are
driver-specific errors and wrap no gorm sentinel because the connection is
opened without error translation. -/
def DBFail.sentinels : DBFail → List Sentinel
  | .recordNotFound => [.recordNotFound]
  | .constraintViolation _ => []

/-- fmt.Errorf("ctx: %%w", dbErr) at a repository call site. -/
def liftDB (ctx : String) (f : DBFail) : GoErr := ⟨ctx ++ f.errMsg, f.sentinels⟩

/-- The users table: its rows plus a monotone clock stamping created_at and
deleted_at. Soft-deleted rows stay in the list. -/
structure Store where
  rows : List User
  clock : Nat
deriving DecidableEq, Repr

/-- Rows visible to ordinary queries: GORM's soft-delete scope keeps only
rows whose deleted_at is null. -/
def Store.live (s : Store) : List User :=
  s.rows.filter (fun u => u.DeletedAt.isNone)

/-- Next auto-increment id: one past the largest id ever assigned. -/
def Store.nextID (s : Store) : Nat :=
  1 + (s.rows.map (fun u => u.ID)).foldr Nat.max 0

/-- chk_users_status from the migration: status must be one of the three
enumerated values. -/
def validStatus (st : String) : Bool :=
  st == StatusActive || st == StatusInactive || st == StatusSuspended

/-- db.First(&user, id): first live row with the given id, or
gorm.ErrRecordNotFound. -/
def DB.firstByID (s : Store) (id : Nat) : Except DBFail User :=
  match s.live.find? (fun u => u.ID == id) with
  | some u => .ok u
  | none => .error .recordNotFound

/-- db.Where("email = ?", email).First(&user): first live row with the given
email, or gorm.ErrRecordNotFound. -/
def DB.firstByEmail (s : Store) (email : String) : Except DBFail User :=
  match s.live.find? (fun u => u.Email == email) with
  | some u => .ok u
  | none => .error .recordNotFound

/-- db.Create(user): run the BeforeCreate hook, then INSERT, enforcing the
CHECK constraint on status and the unique index on email. The unique index
covers every row, soft-deleted rows included. On success the driver fills in
the assigned id and created_at. -/
def DB.insert (s : Store) (u : User) : Except DBFail (User × Store) :=
  let u := u.BeforeCreate
  if !validStatus u.Status then
    .error (.constraintViolation "violates check constraint chk_users_status")
  else if s.rows.any (fun r => r.Email == u.Email) then
    .error (.constraintViolation "duplicate key value violates unique index on email")
  else
    let u := { u with ID := s.nextID, CreatedAt := s.clock, DeletedAt := none }
    .ok (u, ⟨s.rows ++ [u], s.clock + 1⟩)

/-- db.Save(user): UPDATE of every column of the live row carrying the
struct's primary key, enforcing the CHECK constraint on status and the
unique index on email against every other row. Matching zero rows is not an
error. -/
def DB.save (s : Store) (u : User) : Except DBFail Store :=
  if !validStatus u.Status then
    .error (.constraintViolation "violates check constraint chk_users_status")
  else if s.rows.any (fun r => r.ID != u.ID && r.Email == u.Email) then
    .error (.constraintViolation "duplicate key value violates unique index on email")
  else
    .ok ⟨s.rows.map (fun r => if r.ID == u.ID && r.DeletedAt.isNone then u else r),
         s.clock + 1⟩

/-- db.Delete(&User\x7b\x7d, id) on a soft-deletable model: UPDATE setting
deleted_at on the live row with the given id; affecting zero rows is not an
error. -/
def DB.softDelete (s : Store) (id : Nat) : Store :=
  ⟨s.rows.map (fun r =>
      if r.ID == id && r.DeletedAt.isNone then { r with DeletedAt := some s.clock } else r),
   s.clock + 1⟩

/-- db.Model(&User\x7b\x7d).Where("id = ?", id).Count: live rows with the
given id. -/
def DB.countByID (s : Store) (id : Nat) : Nat :=
  ((s.live).filter (fun u => u.ID == id)).length

/-! ### SQL LIKE -/

/-- SQL LIKE pattern matching with the default escape character of both
supported dialects: the percent sign matches any character sequence, the
underscore matches exactly one character, a backslash forces the following
pattern character to match literally, and any other pattern character
matches itself. A pattern ending in a lone backslash matches nothing
(PostgreSQL rejects such patterns outright). The percent case tries every
suffix of the text, which keeps the recursion structural in the pattern. -/
def likeMatch : List Char → List Char → Bool
  | [], text => text.isEmpty
  | p :: ps, text =>
    if p = '%' then
      text.tails.any (fun t => likeMatch ps t)
    else if p = '\\' then
      match ps, text with
      | e :: ps2, t :: ts => e == t && likeMatch ps2 ts
      | _, _ => false
    else
      match text with
      | [] => false
      | t :: ts => if p = '_' then likeMatch ps ts else p == t && likeMatch ps ts

/-- LOWER(x) of the database, modelled as ASCII lowercasing of every
character. -/
def sqlLower (s : String) : String := ⟨s.data.map Char.toLower⟩

/-- The search predicate of repository List: LOWER(name) LIKE term OR
LOWER(email) LIKE term, where term wraps the lowercased search string in
percent signs. -/
def searchWhere (search : String) (u : User) : Bool :=
  let term := '%' :: ((sqlLower search).data ++ ['%'])
  likeMatch term (sqlLower u.Name).data || likeMatch term (sqlLower u.Email).data

/-- ORDER BY created_at DESC as a relation. -/
def createdDesc (a b : User) : Prop := b.CreatedAt ≤ a.CreatedAt

instance : DecidableRel createdDesc := fun a b => Nat.decLe b.CreatedAt a.CreatedAt

instance : IsTotal User createdDesc :=
  ⟨fun a b => Nat.le_total b.CreatedAt a.CreatedAt⟩

instance : IsTrans User createdDesc :=
  ⟨fun _ _ _ h1 h2 => Nat.le_trans h2 h1⟩

/-! ### Repository (repository.go) -/

/-- Repository Create: db.Create wrapped with operation context. -/
def Repo.Create (s : Store) (u : User) : Except GoErr (User × Store) :=
  match DB.insert s u with
  | .ok r => .ok r
  | .error f => .error (liftDB "failed to create user: " f)

/-- Repository GetByID: db.First by primary key; gorm.ErrRecordNotFound is
wrapped as "user not found with id %%d: %%w". -/
def Repo.GetByID (s : Store) (id : Nat) : Except GoErr User :=
  match DB.firstByID s id with
  | .ok u => .ok u
  | .error .recordNotFound =>
    .error (liftDB ("user not found with id " ++ toString id ++ ": ") .recordNotFound)
  | .error f => .error (liftDB "failed to get user by id: " f)

/-- Repository GetByEmail: db.First keyed by email; gorm.ErrRecordNotFound
is wrapped as "user not found with email %%s: %%w". -/
def Repo.GetByEmail (s : Store) (email : String) : Except GoErr User :=
  match DB.firstByEmail s email with
  | .ok u => .ok u
  | .error .recordNotFound =>
    .error (liftDB ("user not found with email " ++ email ++ ": ") .recordNotFound)
  | .error f => .error (liftDB "failed to get user by email: " f)

/-- Repository Update: db.Save wrapped with operation context. -/
def Repo.Update (s : Store) (u : User) : Except GoErr Store :=
  match DB.save s u with
  | .ok s2 => .ok s2
  | .error f => .error (liftDB "failed to update user: " f)

/-- Repository Delete: db.Delete performs the soft delete; it fails only on
connectivity, which is not modelled. -/
def Repo.Delete (s : Store) (id : Nat) : Except GoErr Store :=
  .ok (DB.softDelete s id)

/-- Repository List: apply the optional status and search filters to the
live rows, take the total count of the filtered set, then order by
created_at descending and window by offset and limit. Count runs before the
window is applied. GORM emits the OFFSET clause only for a positive offset
(so a non-positive offset drops nothing, which Int.toNat makes literal) and
the LIMIT clause only for a non-negative limit, so a negative limit returns
the whole remaining window. -/
def Repo.List (s : Store) (q : ListUsersQuery) : List User × Nat :=
  let base := s.live
  let base := if q.Status != "" then base.filter (fun u => u.Status == q.Status) else base
  let base := if q.Search != "" then base.filter (searchWhere q.Search) else base
  let total := base.length
  let window := (List.insertionSort createdDesc base).drop q.Offset.toNat
  let page := if q.Limit < 0 then window else window.take q.Limit.toNat
  (page, total)

/-- Repository Exists: count of live rows with the id, compared with zero.
The count query fails only on connectivity, which is not modelled. -/
def Repo.Exists (s : Store) (id : Nat) : Bool :=
  decide (0 < DB.countByID s id)

/-! ### Service (service.go) -/

/-- Service Create: duplicate-email pre-check via GetByEmail, where a
record-not-found outcome is expected and non-fatal; then build the User from
the request and create it. -/
def Service.Create (s : Store) (req : CreateUserRequest) : Except GoErr (User × Store) :=
  match Repo.GetByEmail s req.Email with
  | .ok _ => .error (newErr ("email already exists: " ++ req.Email))
  | .error e =>
    if e.errorsIs .recordNotFound then
      match Repo.Create s req.ToUser with
      | .error e2 => .error (wrapErr "failed to create user: " e2)
      | .ok r => .ok r
    else
      .error (wrapErr "failed to check email duplication: " e)

/-- Service GetByID: delegate to the repository and translate
record-not-found into a domain-level message without a %%w verb, so the gorm
sentinel is no longer in the unwrap chain. -/
def Service.GetByID (s : Store) (id : Nat) : Except GoErr User :=
  match Repo.GetByID s id with
  | .ok u => .ok u
  | .error e =>
    if e.errorsIs .recordNotFound then
      .error (newErr ("user not found with id " ++ toString id))
    else
      .error (wrapErr "failed to get user: " e)

/-- Duplicate-email check block of service Update: it runs only when the
request carries an email different from the loaded user's email; a
record-not-found outcome of the probe is expected and non-fatal. -/
def Service.updateDupCheck (s : Store) (user : User) (req : UpdateUserRequest) :
    Except GoErr Unit :=
  match req.Email with
  | some em =>
    if em != user.Email then
      match Repo.GetByEmail s em with
      | .ok _ => .error (newErr ("email already exists: " ++ em))
      | .error e =>
        if e.errorsIs .recordNotFound then .ok ()
        else .error (wrapErr "failed to check email duplication: " e)
    else .ok ()
  | none => .ok ()

/-- Service Update: load the current row; when the request carries an email
different from the loaded one, re-run the duplicate check; apply the present
request fields onto the loaded entity; persist via repository Update. -/
def Service.Update (s : Store) (id : Nat) (req : UpdateUserRequest) :
    Except GoErr (User × Store) :=
  match Repo.GetByID s id with
  | .error e =>
    if e.errorsIs .recordNotFound then
      .error (newErr ("user not found with id " ++ toString id))
    else
      .error (wrapErr "failed to get user for update: " e)
  | .ok user =>
    match Service.updateDupCheck s user req with
    | .error e => .error e
    | .ok _ =>
      let user := req.ApplyTo user
      match Repo.Update s user with
      | .error e => .error (wrapErr "failed to update user: " e)
      | .ok s2 => .ok (user, s2)

/-- Service Delete: existence check first, failing with the domain-level
not-found message when absent, then the repository soft delete. -/
def Service.Delete (s : Store) (id : Nat) : Except GoErr Store :=
  if !Repo.Exists s id then
    .error (newErr ("user not found with id " ++ toString id))
  else
    match Repo.Delete s id with
    | .error e => .error (wrapErr "failed to delete user: " e)
    | .ok s2 => .ok s2

/-- Service List: validate the query in place, then delegate to the
repository. The validated query is returned because Go mutates the query
through a pointer that the handler reads afterwards. -/
def Service.List (s : Store) (q : ListUsersQuery) :
    (List User × Nat) × ListUsersQuery :=
  let q := q.Validate
  (Repo.List s q, q)

/-- Membership of a status string in the enumeration of model.go and of the
CHECK constraint of the migration. -/
def statusOk (st : String) : Prop :=
  st = StatusActive ∨ st = StatusInactive ∨ st = StatusSuspended

/-- Invariant of the users table: every row, live or soft-deleted, carries
one of the three enumerated status values. -/
def statusInv (s : Store) : Prop := ∀ u ∈ s.rows, statusOk u.Status

/-- Literal (meta-character free) substring containment over character
lists: the second argument contains the first as a contiguous run. -/
def containsSub (pat : List Char) : List Char → Bool
  | [] => pat.isPrefixOf []
  | c :: t => pat.isPrefixOf (c :: t) || containsSub pat t

/-- A search pattern is literal when it holds none of the LIKE
meta-characters (percent, underscore) nor the escape character backslash. -/
def noMeta (pat : List Char) : Bool :=
  pat.all (fun c => !(c == '%') && !(c == '_') && !(c == '\\'))

/-- Row predicate of the List contract: live, passing the optional exact
status filter and the optional search filter. -/
def listMatches (q : ListUsersQuery) (u : User) : Bool :=
  u.DeletedAt.isNone && (q.Status == "" || u.Status == q.Status) &&
    (q.Search == "" || searchWhere q.Search u)

/-- Example table used to exercise the list contract: two live active rows
(one matching the search by name, one by email only after lowercasing), one
live inactive row, and one soft-deleted active row. -/
def demoStore : Store :=
  ⟨[⟨1, "Alice", "a@x.com", "active", 0, none⟩,
    ⟨2, "Bob", "b@x.com", "inactive", 1, none⟩,
    ⟨3, "Carl", "ALI@x.com", "active", 2, none⟩,
    ⟨4, "Dora", "d@x.com", "active", 3, some 4⟩], 4⟩

/-- Example list query: first page, status filter active, search "ali". -/
def demoQuery : ListUsersQuery := ⟨0, 10, "active", "ali"⟩

/-! ### Handler (handler.go) -/

/-- errEmailAlreadyExists constant from handler.go (20 characters). -/
def errEmailAlreadyExists : String := "email already exists"

/-- errUserNotFound constant from handler.go (14 characters). -/
def errUserNotFound : String := "user not found"

/-- Duplicate-email probe from handler.go: errors.Is against
gorm.ErrDuplicatedKey, or an exact or 20-byte-prefix match of the error text
against errEmailAlreadyExists. -/
def isDuplicateEmailErr (e : GoErr) : Bool :=
  e.errorsIs .duplicatedKey ||
    (e.msg != "" && (e.msg == errEmailAlreadyExists ||
      (decide (20 < e.msg.length) && e.msg.take 20 == errEmailAlreadyExists)))

/-- Not-found probe from handler.go: errors.Is against
gorm.ErrRecordNotFound, or an exact match of the error text against
errUserNotFound, or a comparison of the 15-byte prefix of the error text
against errUserNotFound. -/
def isUserNotFoundErr (e : GoErr) : Bool :=
  e.errorsIs .recordNotFound ||
    (e.msg != "" && (e.msg == errUserNotFound ||
      (decide (15 < e.msg.length) && e.msg.take 15 == errUserNotFound)))

/-- strconv.ParseUint(s, 10, 32): nonempty all-digit strings whose value
fits in 32 bits. -/
def parseUint32 (s : String) : Option Nat :=
  if s.isEmpty then none
  else if s.data.all Char.isDigit then
    let n := s.data.foldl (fun acc c => acc * 10 + (c.toNat - 48)) 0
    if n < 2 ^ 32 then some n else none
  else none

/-- Outcome of one handler call: HTTP status, optional user payload, and the
table state after the call. -/
structure HResult where
  status : Nat
  body : Option User
  store : Store
deriving DecidableEq, Repr

/-- Handler Create: shallow field validation, then service Create, mapping a
duplicate-email failure to 409 and any other failure to 500; 201 on
success. -/
def Handler.Create (s : Store) (req : CreateUserRequest) : HResult :=
  if req.Name == "" then ⟨400, none, s⟩
  else if req.Email == "" then ⟨400, none, s⟩
  else if decide (req.Name.length < 2) || decide (100 < req.Name.length) then ⟨400, none, s⟩
  else
    match Service.Create s req with
    | .error e => if isDuplicateEmailErr e then ⟨409, none, s⟩ else ⟨500, none, s⟩
    | .ok (u, s2) => ⟨201, some u, s2⟩

/-- Handler GetByID: parse the id parameter, then service GetByID, mapping a
failure that passes the not-found probe to 404 and any other failure to
500. -/
def Handler.GetByID (s : Store) (idParam : String) : HResult :=
  match parseUint32 idParam with
  | none => ⟨400, none, s⟩
  | some id =>
    match Service.GetByID s id with
    | .error e => if isUserNotFoundErr e then ⟨404, none, s⟩ else ⟨500, none, s⟩
    | .ok u => ⟨200, some u, s⟩

/-- Handler Update: parse the id, validate present body fields, then service
Update, mapping not-found to 404, duplicate-email to 409, anything else to
500. -/
def Handler.Update (s : Store) (idParam : String) (req : UpdateUserRequest) : HResult :=
  match parseUint32 idParam with
  | none => ⟨400, none, s⟩
  | some id =>
    if (match req.Name with
        | some n => n == "" || decide (n.length < 2) || decide (100 < n.length)
        | none => false) then ⟨400, none, s⟩
    else if (match req.Email with
        | some em => em == ""
        | none => false) then ⟨400, none, s⟩
    else
      match Service.Update s id req with
      | .error e =>
        if isUserNotFoundErr e then ⟨404, none, s⟩
        else if isDuplicateEmailErr e then ⟨409, none, s⟩
        else ⟨500, none, s⟩
      | .ok (u, s2) => ⟨200, some u, s2⟩

/-- Handler Delete: parse the id, then service Delete, mapping not-found to
404 and any other failure to 500; 204 on success. -/
def Handler.Delete (s : Store) (idParam : String) : HResult :=
  match parseUint32 idParam with
  | none => ⟨400, none, s⟩
  | some id =>
    match Service.Delete s id with
    | .error e => if isUserNotFoundErr e then ⟨404, none, s⟩ else ⟨500, none, s⟩
    | .ok s2 => ⟨204, none, s2⟩

/-- Outcome of the list handler: HTTP status, page of users, and the
pagination envelope taken from the validated query. -/
structure ListResult where
  status : Nat
  users : List User
  offset : Int
  limit : Int
  total : Nat
deriving DecidableEq, Repr

/-- Handler List: validate the query, call service List (which validates
again), and answer 200 with the page and the pagination envelope read back
from the mutated query. -/
def Handler.List (s : Store) (q : ListUsersQuery) : ListResult :=
  let q := q.Validate
  let r := Service.List s q
  ⟨200, r.1.1, r.2.Offset, r.2.Limit, r.1.2⟩

end Spindle

namespace Spindle

/-! ## Helper lemmas -/

theorem mem_live {s : Store} {u : User} : u ∈ s.live ↔ u ∈ s.rows ∧ u.DeletedAt = none := by
  simp [Store.live, List.mem_filter, Option.isNone_iff_eq_none]

/-! ## Claims -/

/-- C10: ListUsersQuery.Validate is idempotent: applying it twice yields the
same Offset and Limit as applying it once, which the code relies on because
the handler validates the query and the service validates it again. -/
theorem C10_Validate_idempotent (q : ListUsersQuery) :
    (q.Validate).Validate = q.Validate := by
  rcases q with ⟨o, l, st, se⟩
  simp only [ListUsersQuery.Validate]
  split_ifs <;> simp_all

/-- C4: Validate leaves Limit unchanged when it lies in 1..100 and resets it
to 20 otherwise, resets a negative Offset to 0 and keeps a non-negative one,
and consequently the list endpoint behaves identically for limit 0, limit
101 and limit 20. -/
theorem C4_Validate_clamps (q : ListUsersQuery) :
    (q.Validate).Limit = (if q.Limit ≤ 0 ∨ 100 < q.Limit then 20 else q.Limit) ∧
    (q.Validate).Offset = (if q.Offset < 0 then 0 else q.Offset) ∧
    ListUsersQuery.Validate { q with Limit := 0 } =
      ListUsersQuery.Validate { q with Limit := 20 } ∧
    ListUsersQuery.Validate { q with Limit := 101 } =
      ListUsersQuery.Validate { q with Limit := 20 } ∧
    (∀ s : Store, Handler.List s { q with Limit := 0 } = Handler.List s { q with Limit := 20 }) ∧
    (∀ s : Store, Handler.List s { q with Limit := 101 } = Handler.List s { q with Limit := 20 }) := by
  rcases q with ⟨o, l, st, se⟩
  refine ⟨?_, ?_, ?_, ?_, ?_, ?_⟩ <;>
    first
      | (simp only [ListUsersQuery.Validate]; split_ifs <;> simp_all)
      | (intro s
         simp only [Handler.List, ListUsersQuery.Validate]
         split_ifs <;> simp_all)

/-- C1 (code bug): the claim says the handlers map the service not-found
failure on GET, PUT and DELETE of /v1/users/:id to HTTP 404, but the
handler's probe compares the 15-byte prefix of the error text with the
14-byte constant errUserNotFound, which never matches, so a non-existent id
yields 500 even though the service did fail with the not-found message. -/
theorem C1_notfound_answers_500 :
    Service.GetByID ⟨[], 0⟩ 999999 = .error (newErr "user not found with id 999999") ∧
    (Handler.GetByID ⟨[], 0⟩ "999999").status = 500 ∧
    (Handler.Update ⟨[], 0⟩ "999999" ⟨none, none, none⟩).status = 500 ∧
    (Handler.Delete ⟨[], 0⟩ "999999").status = 500 :=
  ⟨rfl, by decide, by decide, by decide⟩

theorem User.BeforeCreate_Email (u : User) : u.BeforeCreate.Email = u.Email := by
  unfold User.BeforeCreate; split <;> rfl

theorem User.BeforeCreate_Status_of_ne {u : User} (h : u.Status ≠ "") :
    u.BeforeCreate.Status = u.Status := by
  simp [User.BeforeCreate, h]

theorem CreateUserRequest.ToUser_Status_of_ne {req : CreateUserRequest} (h : req.Status ≠ "") :
    (req.ToUser).Status = req.Status := by
  simp [CreateUserRequest.ToUser, h]

theorem DB.insert_ok_shape {s : Store} {u u' : User} {s' : Store}
    (h : DB.insert s u = .ok (u', s')) :
    validStatus u'.Status = true ∧ s'.rows = s.rows ++ [u'] ∧
    u'.Status = u.BeforeCreate.Status ∧ u'.Email = u.Email ∧
    u'.DeletedAt = none ∧ u'.ID = s.nextID ∧ u'.CreatedAt = s.clock ∧
    s'.clock = s.clock + 1 := by
  simp only [DB.insert] at h
  split at h
  · exact absurd h (by simp)
  · split at h
    · exact absurd h (by simp)
    · rename_i h1 h2
      simp only [Bool.not_eq_true, Bool.not_eq_false] at h1
      simp only [Except.ok.injEq, Prod.mk.injEq] at h
      obtain ⟨h3, h4⟩ := h
      subst h3; subst h4
      refine ⟨by simpa using h1, rfl, rfl, by simp [User.BeforeCreate_Email], rfl, rfl, rfl, rfl⟩

theorem DB.save_ok_mem {s : Store} {u : User} {s' : Store} (h : DB.save s u = .ok s') :
    validStatus u.Status = true ∧ ∀ r ∈ s'.rows, r ∈ s.rows ∨ r = u := by
  simp only [DB.save] at h
  split at h
  · exact absurd h (by simp)
  · split at h
    · exact absurd h (by simp)
    · rename_i h1 h2
      simp only [Bool.not_eq_true, Bool.not_eq_false] at h1
      simp only [Except.ok.injEq] at h
      subst h
      refine ⟨by simpa using h1, ?_⟩
      intro r hr
      simp only [List.mem_map] at hr
      obtain ⟨r0, hr0, hEq⟩ := hr
      by_cases hc : (r0.ID == u.ID && r0.DeletedAt.isNone) = true
      · rw [if_pos hc] at hEq; exact .inr hEq.symm
      · rw [if_neg hc] at hEq; exact .inl (hEq ▸ hr0)

theorem Service.Create_ok_shape {s : Store} {req : CreateUserRequest} {u' : User} {s' : Store}
    (h : Service.Create s req = .ok (u', s')) :
    DB.insert s req.ToUser = .ok (u', s') := by
  simp only [Service.Create, Repo.Create] at h
  rcases hge : Repo.GetByEmail s req.Email with e | u0
  · simp only [hge] at h
    split at h
    · rcases hins : DB.insert s req.ToUser with f | p
      · simp only [hins] at h
        simp at h
      · obtain ⟨pu, ps⟩ := p
        simp only [hins, Except.ok.injEq, Prod.mk.injEq] at h
        obtain ⟨h1, h2⟩ := h
        rw [h1, h2]
    · simp at h
  · simp only [hge] at h
    simp at h

theorem Service.Update_ok_shape {s : Store} {id : Nat} {req : UpdateUserRequest}
    {u' : User} {s2 : Store} (h : Service.Update s id req = .ok (u', s2)) :
    ∃ u0, Repo.GetByID s id = .ok u0 ∧ Service.updateDupCheck s u0 req = .ok () ∧
      u' = req.ApplyTo u0 ∧ DB.save s u' = .ok s2 := by
  simp only [Service.Update, Repo.Update] at h
  rcases hg : Repo.GetByID s id with e | user
  · simp only [hg] at h
    split at h <;> simp at h
  · simp only [hg] at h
    rcases hdc : Service.updateDupCheck s user req with e | uu
    · simp only [hdc] at h
      simp at h
    · simp only [hdc] at h
      rcases hsv : DB.save s (req.ApplyTo user) with f | s3
      · simp only [hsv] at h
        simp at h
      · simp only [hsv, Except.ok.injEq, Prod.mk.injEq] at h
        obtain ⟨h1, h2⟩ := h
        subst h1; subst h2
        exact ⟨user, rfl, by cases uu; exact hdc, rfl, hsv⟩

theorem Handler.Create_store_cases (s : Store) (req : CreateUserRequest) :
    (Handler.Create s req).store = s ∨
      ∃ u', DB.insert s req.ToUser = .ok (u', (Handler.Create s req).store) := by
  unfold Handler.Create
  split_ifs
  · exact .inl rfl
  · exact .inl rfl
  · exact .inl rfl
  · split
    · split_ifs <;> exact .inl rfl
    · rename_i u s2 hsu
      exact .inr ⟨u, Service.Create_ok_shape hsu⟩

theorem Handler.Update_store_cases (s : Store) (idp : String) (req : UpdateUserRequest) :
    (Handler.Update s idp req).store = s ∨
      ∃ u', DB.save s u' = .ok (Handler.Update s idp req).store := by
  unfold Handler.Update
  split
  · exact .inl rfl
  · split_ifs
    · exact .inl rfl
    · exact .inl rfl
    · split
      · split_ifs <;> exact .inl rfl
      · rename_i u s2 hsu
        obtain ⟨u0, -, -, -, hsv⟩ := Service.Update_ok_shape hsu
        exact .inr ⟨u, hsv⟩

theorem statusOk_of_valid {st : String} (h : validStatus st = true) : statusOk st := by
  simp only [validStatus, Bool.or_eq_true, beq_iff_eq] at h
  simp only [statusOk]
  tauto

/-- C2: every user row the application persists through the create or
update endpoints carries one of exactly the statuses active, inactive or
suspended, and a create request carrying any other non-empty status string
leaves the table unchanged, so that value is never stored. -/
theorem C2_persisted_status_enumerated (s : Store) (h : statusInv s) :
    (∀ req : CreateUserRequest, statusInv (Handler.Create s req).store) ∧
    (∀ (idp : String) (req : UpdateUserRequest), statusInv (Handler.Update s idp req).store) ∧
    (∀ req : CreateUserRequest, req.Status ≠ "" → validStatus req.Status = false →
      (Handler.Create s req).store = s) := by
  refine ⟨?_, ?_, ?_⟩
  · intro req
    rcases Handler.Create_store_cases s req with hc | ⟨u', hins⟩
    · rw [hc]; exact h
    · obtain ⟨hval, hrows, -⟩ := DB.insert_ok_shape hins
      intro r hr
      rw [hrows] at hr
      rcases List.mem_append.mp hr with h1 | h1
      · exact h r h1
      · rw [List.mem_singleton.mp h1]
        exact statusOk_of_valid hval
  · intro idp req
    rcases Handler.Update_store_cases s idp req with hc | ⟨u', hsv⟩
    · rw [hc]; exact h
    · obtain ⟨hval, hmem⟩ := DB.save_ok_mem hsv
      intro r hr
      rcases hmem r hr with h1 | h1
      · exact h r h1
      · rw [h1]; exact statusOk_of_valid hval
  · intro req hne hbad
    rcases Handler.Create_store_cases s req with hc | ⟨u', hins⟩
    · exact hc
    · exfalso
      obtain ⟨hval, -, hst, -⟩ := DB.insert_ok_shape hins
      have htu : (req.ToUser).Status ≠ "" := by
        rw [CreateUserRequest.ToUser_Status_of_ne hne]; exact hne
      rw [hst, User.BeforeCreate_Status_of_ne htu,
        CreateUserRequest.ToUser_Status_of_ne hne] at hval
      rw [hbad] at hval
      exact Bool.false_ne_true hval

theorem C2_witness :
    statusInv (⟨[], 0⟩ : Store) ∧
    statusInv (Handler.Create ⟨[], 0⟩ ⟨"Bob", "b@x.com", "bogus"⟩).store ∧
    (Handler.Create ⟨[], 0⟩ ⟨"Bob", "b@x.com", "bogus"⟩).store = ⟨[], 0⟩ := by
  have hinv : statusInv (⟨[], 0⟩ : Store) := by intro u hu; simp at hu
  exact ⟨hinv, (C2_persisted_status_enumerated _ hinv).1 _,
    (C2_persisted_status_enumerated _ hinv).2.2 _ (by decide) (by decide)⟩

theorem Repo.GetByEmail_none {s : Store} {em : String} (h : ∀ r ∈ s.live, r.Email ≠ em) :
    Repo.GetByEmail s em =
      .error (liftDB ("user not found with email " ++ em ++ ": ") .recordNotFound) := by
  have hfe : DB.firstByEmail s em = .error .recordNotFound := by
    simp only [DB.firstByEmail]
    have hn : s.live.find? (fun u => u.Email == em) = none := by
      rw [List.find?_eq_none]
      intro x hx
      simp [h x hx]
    rw [hn]
  simp [Repo.GetByEmail, hfe]

theorem Repo.GetByEmail_found {s : Store} {em : String} (h : ∃ r ∈ s.live, r.Email = em) :
    ∃ w, Repo.GetByEmail s em = .ok w := by
  simp only [Repo.GetByEmail, DB.firstByEmail]
  rcases hf : s.live.find? (fun u => u.Email == em) with _ | w
  · exfalso
    obtain ⟨r, hr, hre⟩ := h
    rw [List.find?_eq_none] at hf
    exact hf r hr (by simp [hre])
  · exact ⟨w, by rw [hf]⟩

/-- C7: service Delete runs the existence check first: when no live row has
the id it fails with the not-found message and performs no delete, and when
a live row exists it performs the repository soft delete. -/
theorem C7_delete_existence_first (s : Store) (id : Nat) :
    ((∀ u ∈ s.rows, u.DeletedAt = none → u.ID ≠ id) →
      Service.Delete s id = .error (newErr ("user not found with id " ++ toString id))) ∧
    ((∃ u ∈ s.rows, u.DeletedAt = none ∧ u.ID = id) →
      Service.Delete s id = .ok (DB.softDelete s id)) := by
  constructor
  · intro habs
    have hcnt : DB.countByID s id = 0 := by
      simp only [DB.countByID, List.length_eq_zero]
      rw [List.filter_eq_nil_iff]
      intro a ha
      have hm := mem_live.mp ha
      simp [habs a hm.1 hm.2]
    simp [Service.Delete, Repo.Exists, hcnt]
  · rintro ⟨u, hu, hdel, hid⟩
    have hmem : u ∈ s.live := mem_live.mpr ⟨hu, hdel⟩
    have hcnt : 0 < DB.countByID s id := by
      simp only [DB.countByID]
      have hm : u ∈ s.live.filter (fun v => v.ID == id) := by
        simp [List.mem_filter, hmem, hid]
      exact List.length_pos_of_mem hm
    simp [Service.Delete, Repo.Exists, Repo.Delete, hcnt]

theorem C7_witness :
    Service.Delete (⟨[], 0⟩ : Store) 7 = .error (newErr "user not found with id 7") ∧
    Service.Delete (⟨[⟨1, "Alice", "a@x.com", "active", 0, none⟩], 1⟩ : Store) 1 =
      .ok (DB.softDelete ⟨[⟨1, "Alice", "a@x.com", "active", 0, none⟩], 1⟩ 1) :=
  ⟨(C7_delete_existence_first ⟨[], 0⟩ 7).1 (by decide),
   (C7_delete_existence_first ⟨[⟨1, "Alice", "a@x.com", "active", 0, none⟩], 1⟩ 1).2
     ⟨⟨1, "Alice", "a@x.com", "active", 0, none⟩, by simp, rfl, rfl⟩⟩

/-- C5: update applies exactly the present request fields onto the loaded
entity, and a status-only update on an existing user returns the merged row
with name and email unchanged. -/
theorem C5_update_merges_present_fields (s : Store) (id : Nat) (u : User)
    (req : UpdateUserRequest) (hget : Repo.GetByID s id = .ok u)
    (huniq : ∀ r ∈ s.rows, r.ID ≠ u.ID → r.Email ≠ u.Email) :
    ((req.ApplyTo u).Name = req.Name.getD u.Name ∧
     (req.ApplyTo u).Email = req.Email.getD u.Email ∧
     (req.ApplyTo u).Status = req.Status.getD u.Status) ∧
    (∀ st : String, req.Name = none → req.Email = none → req.Status = some st →
      validStatus st = true →
      ∃ s2, Service.Update s id req = .ok (req.ApplyTo u, s2) ∧
        (req.ApplyTo u).Name = u.Name ∧ (req.ApplyTo u).Email = u.Email ∧
        (req.ApplyTo u).Status = st) := by
  constructor
  · rcases req with ⟨n, e, st⟩
    cases n <;> cases e <;> cases st <;> simp [UpdateUserRequest.ApplyTo]
  · intro st hn he hst hval
    have happ : req.ApplyTo u = { u with Status := st } := by
      rcases req with ⟨n, e, st2⟩
      simp only [UpdateUserRequest.mk.injEq] at hn he hst
      subst hn; subst he; subst hst
      simp [UpdateUserRequest.ApplyTo]
    have hv2 : validStatus (req.ApplyTo u).Status = true := by
      rw [happ]; simpa using hval
    have hany : s.rows.any
        (fun r => r.ID != (req.ApplyTo u).ID && r.Email == (req.ApplyTo u).Email) = false := by
      rw [List.any_eq_false]
      intro r hr
      rw [happ]
      simp only [Bool.and_eq_true, bne_iff_ne, beq_iff_eq, not_and]
      intro hne
      exact huniq r hr (by simpa using hne)
    obtain ⟨s2, hsv⟩ : ∃ s2, DB.save s (req.ApplyTo u) = .ok s2 := by
      simp only [DB.save]
      rw [if_neg (by simp [hv2]), if_neg (by simp [hany])]
      exact ⟨_, rfl⟩
    have hdc : Service.updateDupCheck s u req = .ok () := by
      simp [Service.updateDupCheck, he]
    refine ⟨s2, ?_, by simp [happ], by simp [happ], by simp [happ]⟩
    simp [Service.Update, hget, hdc, Repo.Update, hsv]

theorem C5_witness :
    ∃ s2, Service.Update (⟨[⟨1, "Alice", "a@x.com", "active", 0, none⟩], 1⟩ : Store) 1
        ⟨none, none, some "suspended"⟩ =
        .ok ((⟨none, none, some "suspended"⟩ : UpdateUserRequest).ApplyTo
          ⟨1, "Alice", "a@x.com", "active", 0, none⟩, s2) ∧
      ((⟨none, none, some "suspended"⟩ : UpdateUserRequest).ApplyTo
        ⟨1, "Alice", "a@x.com", "active", 0, none⟩).Name = "Alice" ∧
      ((⟨none, none, some "suspended"⟩ : UpdateUserRequest).ApplyTo
        ⟨1, "Alice", "a@x.com", "active", 0, none⟩).Email = "a@x.com" ∧
      ((⟨none, none, some "suspended"⟩ : UpdateUserRequest).ApplyTo
        ⟨1, "Alice", "a@x.com", "active", 0, none⟩).Status = "suspended" :=
  (C5_update_merges_present_fields ⟨[⟨1, "Alice", "a@x.com", "active", 0, none⟩], 1⟩ 1
      ⟨1, "Alice", "a@x.com", "active", 0, none⟩ ⟨none, none, some "suspended"⟩
      rfl (by decide)).2 "suspended" rfl rfl rfl (by decide)

theorem take20_dupMsg (em : String) :
    ("email already exists: " ++ em).take 20 = "email already exists" := by
  apply String.ext
  rw [String.data_take, String.data_append, List.take_append_eq_append_take]
  simp

theorem length_dupMsg (em : String) :
    ("email already exists: " ++ em).length = 22 + em.length := by
  rw [String.length_append, show ("email already exists: ").length = 22 from by decide]

theorem isDuplicateEmailErr_dupMsg (em : String) :
    isDuplicateEmailErr (newErr ("email already exists: " ++ em)) = true := by
  have hne : ("email already exists: " ++ em) ≠ "" := by
    intro h0
    have hl := length_dupMsg em
    rw [h0, show ("" : String).length = 0 from rfl] at hl
    omega
  have hlt : 20 < ("email already exists: " ++ em).length := by
    rw [length_dupMsg]; omega
  simp [isDuplicateEmailErr, newErr, GoErr.errorsIs, hne, hlt, take20_dupMsg,
    errEmailAlreadyExists]
  exact .inr (by rw [show ("email already exists: ").length = 22 from by decide]; omega)

theorem DB.save_error_desc {s : Store} {u : User} {f : DBFail}
    (h : DB.save s u = .error f) :
    f = .constraintViolation "violates check constraint chk_users_status" ∨
    f = .constraintViolation "duplicate key value violates unique index on email" := by
  simp only [DB.save] at h
  split at h
  · simp only [Except.error.injEq] at h
    exact .inl h.symm
  · split at h
    · simp only [Except.error.injEq] at h
      exact .inr h.symm
    · simp at h

theorem Service.Update_error_after_dupok {s : Store} {id : Nat} {req : UpdateUserRequest}
    {u : User} {e : GoErr} (hget : Repo.GetByID s id = .ok u)
    (hdc : Service.updateDupCheck s u req = .ok ())
    (h : Service.Update s id req = .error e) :
    ∃ f, DB.save s (req.ApplyTo u) = .error f ∧
      e = wrapErr "failed to update user: " (liftDB "failed to update user: " f) := by
  simp only [Service.Update, hget, hdc, Repo.Update] at h
  rcases hsv : DB.save s (req.ApplyTo u) with f | s3
  · simp only [hsv] at h
    simp only [Except.error.injEq] at h
    exact ⟨f, rfl, h.symm⟩
  · simp only [hsv] at h
    simp at h

theorem updateDupCheck_skip {s : Store} {u : User} {req : UpdateUserRequest}
    (h : req.Email = none ∨ req.Email = some u.Email) :
    Service.updateDupCheck s u req = .ok () := by
  rcases h with h | h <;> simp [Service.updateDupCheck, h]

theorem updateDupCheck_fresh {s : Store} {u : User} {req : UpdateUserRequest} {em : String}
    (h : req.Email = some em) (hne : em ≠ u.Email)
    (hfresh : ∀ r ∈ s.live, r.Email ≠ em) :
    Service.updateDupCheck s u req = .ok () := by
  simp only [Service.updateDupCheck, h]
  rw [if_pos (by simp [hne])]
  rw [Repo.GetByEmail_none hfresh]
  simp [GoErr.errorsIs, liftDB, DBFail.sentinels]

theorem updateDupCheck_conflict {s : Store} {u : User} {req : UpdateUserRequest} {em : String}
    (h : req.Email = some em) (hne : em ≠ u.Email)
    (hfound : ∃ r ∈ s.live, r.Email = em) :
    Service.updateDupCheck s u req = .error (newErr ("email already exists: " ++ em)) := by
  obtain ⟨w, hw⟩ := Repo.GetByEmail_found hfound
  simp only [Service.updateDupCheck, h]
  rw [if_pos (by simp [hne]), hw]

set_option maxRecDepth 100000 in
/-- C8: service Update re-runs the duplicate-email check exactly when the
request email is present and differs from the loaded user's email; when the
email is absent or equal to the current one the update can never fail with a
duplicate-email conflict. -/
theorem C8_dup_check_iff_email_changes (s : Store) (id : Nat) (u : User)
    (req : UpdateUserRequest) (hget : Repo.GetByID s id = .ok u) :
    ((req.Email = none ∨ req.Email = some u.Email) →
      ∀ e, Service.Update s id req = .error e → isDuplicateEmailErr e = false) ∧
    (∀ em, req.Email = some em → em ≠ u.Email →
      ((∃ r ∈ s.live, r.Email = em) →
        Service.Update s id req = .error (newErr ("email already exists: " ++ em))) ∧
      ((∀ r ∈ s.live, r.Email ≠ em) →
        ∀ e, Service.Update s id req = .error e → isDuplicateEmailErr e = false)) := by
  constructor
  · intro hskip e herr
    obtain ⟨f, hsv, hek⟩ := Service.Update_error_after_dupok hget (updateDupCheck_skip hskip) herr
    rcases DB.save_error_desc hsv with rfl | rfl <;> (subst hek; decide)
  · intro em hem hne
    constructor
    · intro hfound
      simp [Service.Update, hget, updateDupCheck_conflict hem hne hfound]
    · intro hfresh e herr
      obtain ⟨f, hsv, hek⟩ :=
        Service.Update_error_after_dupok hget (updateDupCheck_fresh hem hne hfresh) herr
      rcases DB.save_error_desc hsv with rfl | rfl <;> (subst hek; decide)

set_option maxRecDepth 100000 in
theorem C8_witness :
    Service.Update (⟨[⟨1, "Alice", "a@x.com", "active", 0, none⟩,
        ⟨2, "Bob", "b@x.com", "active", 0, none⟩], 2⟩ : Store) 1
      ⟨none, some "b@x.com", none⟩ = .error (newErr "email already exists: b@x.com") ∧
    isDuplicateEmailErr
      (newErr "failed to update user: failed to update user: violates check constraint chk_users_status") =
      false :=
  ⟨((C8_dup_check_iff_email_changes
      ⟨[⟨1, "Alice", "a@x.com", "active", 0, none⟩, ⟨2, "Bob", "b@x.com", "active", 0, none⟩], 2⟩ 1
      ⟨1, "Alice", "a@x.com", "active", 0, none⟩ ⟨none, some "b@x.com", none⟩ rfl).2
      "b@x.com" rfl (by decide)).1
      ⟨⟨2, "Bob", "b@x.com", "active", 0, none⟩, by simp [Store.live], rfl⟩,
   (C8_dup_check_iff_email_changes
      ⟨[⟨1, "Alice", "a@x.com", "active", 0, none⟩, ⟨2, "Bob", "b@x.com", "active", 0, none⟩], 2⟩ 1
      ⟨1, "Alice", "a@x.com", "active", 0, none⟩ ⟨none, none, some "bogus"⟩ rfl).1
      (Or.inl rfl) _ rfl⟩

theorem toUser_BeforeCreate_Status_empty {req : CreateUserRequest} (h : req.Status = "") :
    (req.ToUser.BeforeCreate).Status = StatusActive := by
  simp [CreateUserRequest.ToUser, User.BeforeCreate, h, StatusActive]

theorem toUser_BeforeCreate_Status_of_valid {req : CreateUserRequest}
    (h : validStatus req.Status = true) :
    (req.ToUser.BeforeCreate).Status = req.Status := by
  have hne : req.Status ≠ "" := by
    intro hx; rw [hx] at h; exact absurd h (by decide)
  have htne : (req.ToUser).Status ≠ "" := by
    rw [CreateUserRequest.ToUser_Status_of_ne hne]; exact hne
  rw [User.BeforeCreate_Status_of_ne htne, CreateUserRequest.ToUser_Status_of_ne hne]

theorem toUser_BeforeCreate_valid {req : CreateUserRequest}
    (h : req.Status = "" ∨ validStatus req.Status = true) :
    validStatus (req.ToUser.BeforeCreate).Status = true := by
  rcases h with h | h
  · rw [toUser_BeforeCreate_Status_empty h]; decide
  · rw [toUser_BeforeCreate_Status_of_valid h]; exact h

theorem Service.Create_fresh {s : Store} {req : CreateUserRequest}
    (hst : validStatus (req.ToUser.BeforeCreate).Status = true)
    (hfresh : ∀ r ∈ s.rows, r.Email ≠ req.Email) :
    ∃ u' s', Service.Create s req = .ok (u', s') ∧
      DB.insert s req.ToUser = .ok (u', s') := by
  have hany : s.rows.any (fun r => r.Email == (req.ToUser.BeforeCreate).Email) = false := by
    rw [List.any_eq_false]
    intro r hr
    rw [User.BeforeCreate_Email]
    show ¬(r.Email == req.Email) = true
    simp [hfresh r hr]
  obtain ⟨u', s', hins⟩ : ∃ u' s', DB.insert s req.ToUser = .ok (u', s') := by
    simp only [DB.insert]
    rw [if_neg (by simp [hst]), if_neg (by simp [hany])]
    exact ⟨_, _, rfl⟩
  have hge : Repo.GetByEmail s req.Email =
      .error (liftDB ("user not found with email " ++ req.Email ++ ": ") .recordNotFound) :=
    Repo.GetByEmail_none (fun r hr => hfresh r (mem_live.mp hr).1)
  exact ⟨u', s',
    by simp [Service.Create, hge, GoErr.errorsIs, liftDB, DBFail.sentinels, Repo.Create, hins],
    hins⟩

theorem le_foldr_max {l : List Nat} {x : Nat} (h : x ∈ l) : x ≤ l.foldr Nat.max 0 := by
  induction l with
  | nil => cases h
  | cons a t ih =>
    rw [List.foldr_cons]
    rcases List.mem_cons.mp h with rfl | h2
    · exact Nat.le_max_left _ _
    · exact le_trans (ih h2) (Nat.le_max_right _ _)

theorem mem_rows_ID_lt_nextID {s : Store} {r : User} (hr : r ∈ s.rows) : r.ID < s.nextID := by
  have h1 : r.ID ∈ s.rows.map (fun u => u.ID) := List.mem_map_of_mem _ hr
  have h2 := le_foldr_max h1
  simp only [Store.nextID]
  omega

theorem find?_append_skip {α : Type} {p : α → Bool} {l1 l2 : List α}
    (h : ∀ x ∈ l1, p x = false) : (l1 ++ l2).find? p = l2.find? p := by
  induction l1 with
  | nil => rfl
  | cons a t ih =>
    have ha := h a (List.mem_cons_self a t)
    rw [List.cons_append, List.find?_cons_of_neg _ (by simp [ha])]
    exact ih (fun x hx => h x (List.mem_cons_of_mem a hx))

theorem Service.GetByID_after_insert {s : Store} {u0 u' : User} {s' : Store}
    (hins : DB.insert s u0 = .ok (u', s')) :
    Service.GetByID s' u'.ID = .ok u' := by
  obtain ⟨-, hrows, -, -, hdel, hid, -, -⟩ := DB.insert_ok_shape hins
  have hlive : s'.live = s.live ++ [u'] := by
    rw [Store.live, hrows, List.filter_append]
    simp [Store.live, hdel]
  have hfind : s'.live.find? (fun v => v.ID == u'.ID) = some u' := by
    rw [hlive, find?_append_skip]
    · simp
    · intro x hx
      have hlt := mem_rows_ID_lt_nextID (mem_live.mp hx).1
      rw [← hid] at hlt
      simp [Nat.ne_of_lt hlt]
  simp [Service.GetByID, Repo.GetByID, DB.firstByID, hfind]

/-- C9: creating a user whose request leaves the status unset persists the
status active and a subsequent get-by-id returns that row with status
active, while a request carrying one of the enumerated statuses persists
exactly that status. -/
theorem C9_create_status_defaulting (s : Store) (req : CreateUserRequest)
    (hfresh : ∀ r ∈ s.rows, r.Email ≠ req.Email) :
    (req.Status = "" →
      ∃ u' s', Service.Create s req = .ok (u', s') ∧ u'.Status = StatusActive ∧
        Service.GetByID s' u'.ID = .ok u') ∧
    (validStatus req.Status = true →
      ∃ u' s', Service.Create s req = .ok (u', s') ∧ u'.Status = req.Status ∧
        Service.GetByID s' u'.ID = .ok u') := by
  constructor
  · intro h0
    obtain ⟨u', s', hsc, hins⟩ :=
      Service.Create_fresh (toUser_BeforeCreate_valid (Or.inl h0)) hfresh
    obtain ⟨-, -, hst, -⟩ := DB.insert_ok_shape hins
    exact ⟨u', s', hsc, by rw [hst, toUser_BeforeCreate_Status_empty h0],
      Service.GetByID_after_insert hins⟩
  · intro h0
    obtain ⟨u', s', hsc, hins⟩ :=
      Service.Create_fresh (toUser_BeforeCreate_valid (Or.inr h0)) hfresh
    obtain ⟨-, -, hst, -⟩ := DB.insert_ok_shape hins
    exact ⟨u', s', hsc, by rw [hst, toUser_BeforeCreate_Status_of_valid h0],
      Service.GetByID_after_insert hins⟩

theorem C9_witness :
    (∃ u' s', Service.Create (⟨[], 0⟩ : Store) ⟨"Ann", "a@x.com", ""⟩ = .ok (u', s') ∧
      u'.Status = StatusActive ∧ Service.GetByID s' u'.ID = .ok u') ∧
    (∃ u' s', Service.Create (⟨[], 0⟩ : Store) ⟨"Bob", "b@x.com", "suspended"⟩ = .ok (u', s') ∧
      u'.Status = "suspended" ∧ Service.GetByID s' u'.ID = .ok u') :=
  ⟨(C9_create_status_defaulting ⟨[], 0⟩ ⟨"Ann", "a@x.com", ""⟩ (by decide)).1 rfl,
   (C9_create_status_defaulting ⟨[], 0⟩ ⟨"Bob", "b@x.com", "suspended"⟩ (by decide)).2 (by decide)⟩

/-- C3: creating two users sequentially with the same email yields 201 for
the first request and 409 for the second, with the table unchanged by the
rejected second request: the service pre-check treats record-not-found as
non-fatal, rejects when a live row already carries the email, and the
handler maps the duplicate-email failure to 409. -/
theorem C3_create_201_then_409 (s : Store) (req : CreateUserRequest)
    (hn : req.Name ≠ "") (he : req.Email ≠ "")
    (hl1 : 2 ≤ req.Name.length) (hl2 : req.Name.length ≤ 100)
    (hst : req.Status = "" ∨ validStatus req.Status = true)
    (hfresh : ∀ r ∈ s.rows, r.Email ≠ req.Email) :
    (Handler.Create s req).status = 201 ∧
    (Handler.Create (Handler.Create s req).store req).status = 409 ∧
    (Handler.Create (Handler.Create s req).store req).store =
      (Handler.Create s req).store := by
  obtain ⟨u', s', hsc, hins⟩ := Service.Create_fresh (toUser_BeforeCreate_valid hst) hfresh
  obtain ⟨-, hrows, -, hem, hdel, -, -, -⟩ := DB.insert_ok_shape hins
  have hb1 : ¬((req.Name == "") = true) := by simp [hn]
  have hb2 : ¬((req.Email == "") = true) := by simp [he]
  have hb3 : ¬((decide (req.Name.length < 2) || decide (100 < req.Name.length)) = true) := by
    simp
    omega
  have h1 : Handler.Create s req = ⟨201, some u', s'⟩ := by
    simp only [Handler.Create]
    rw [if_neg hb1, if_neg hb2, if_neg hb3, hsc]
  have hmem : u' ∈ s'.live :=
    mem_live.mpr ⟨by rw [hrows]; exact List.mem_append_right _ (by simp), hdel⟩
  have hfound : ∃ r ∈ s'.live, r.Email = req.Email := ⟨u', hmem, by rw [hem]; rfl⟩
  obtain ⟨w, hw⟩ := Repo.GetByEmail_found hfound
  have hsc2 : Service.Create s' req = .error (newErr ("email already exists: " ++ req.Email)) := by
    simp [Service.Create, hw]
  have h2 : Handler.Create s' req = ⟨409, none, s'⟩ := by
    simp only [Handler.Create]
    rw [if_neg hb1, if_neg hb2, if_neg hb3, hsc2]
    simp [isDuplicateEmailErr_dupMsg]
  refine ⟨by rw [h1], ?_, ?_⟩
  · rw [h1]
    show (Handler.Create s' req).status = 409
    rw [h2]
  · rw [h1]
    show (Handler.Create s' req).store = s'
    rw [h2]

set_option maxRecDepth 100000 in
theorem C3_witness :
    (Handler.Create (⟨[], 0⟩ : Store) ⟨"Alice", "a@x.com", ""⟩).status = 201 ∧
    (Handler.Create (Handler.Create ⟨[], 0⟩ ⟨"Alice", "a@x.com", ""⟩).store
      ⟨"Alice", "a@x.com", ""⟩).status = 409 ∧
    (Handler.Create (Handler.Create ⟨[], 0⟩ ⟨"Alice", "a@x.com", ""⟩).store
      ⟨"Alice", "a@x.com", ""⟩).store =
      (Handler.Create ⟨[], 0⟩ ⟨"Alice", "a@x.com", ""⟩).store :=
  C3_create_201_then_409 ⟨[], 0⟩ ⟨"Alice", "a@x.com", ""⟩ (by decide) (by decide)
    (by decide) (by decide) (Or.inl rfl) (by decide)

theorem likeMatch_nil (text : List Char) : likeMatch [] text = text.isEmpty := rfl

theorem likeMatch_cons (p : Char) (ps text : List Char) :
    likeMatch (p :: ps) text =
      (if p = '%' then
        text.tails.any (fun t => likeMatch ps t)
      else if p = '\\' then
        match ps, text with
        | e :: ps2, t :: ts => e == t && likeMatch ps2 ts
        | _, _ => false
      else
        match text with
        | [] => false
        | t :: ts => if p = '_' then likeMatch ps ts
          else p == t && likeMatch ps ts) := by
  rw [likeMatch.eq_def]

theorem noMeta_cons {p : Char} {ps : List Char} (h : noMeta (p :: ps) = true) :
    ¬(p = '%') ∧ ¬(p = '_') ∧ ¬(p = '\\') ∧ noMeta ps = true := by
  simp only [noMeta, List.all_cons, Bool.and_eq_true, Bool.not_eq_true', beq_eq_false_iff_ne,
    ne_eq] at h ⊢
  tauto

theorem any_congr {α : Type} {l : List α} {p q : α → Bool} (h : ∀ x ∈ l, p x = q x) :
    l.any p = l.any q := by
  induction l with
  | nil => rfl
  | cons a t ih =>
    rw [List.any_cons, List.any_cons, h a (List.mem_cons_self a t),
      ih (fun x hx => h x (List.mem_cons_of_mem a hx))]

theorem containsSub_eq_tails (pat : List Char) :
    ∀ text, containsSub pat text = text.tails.any (fun t => pat.isPrefixOf t)
  | [] => by
    have ht : ([] : List Char).tails = [[]] := rfl
    rw [ht, List.any_cons, List.any_nil, Bool.or_false]
    rfl
  | c :: ts => by
    rw [List.tails_cons, List.any_cons, ← containsSub_eq_tails pat ts]
    rfl

theorem likeMatch_trailing_pct : ∀ {pat : List Char}, noMeta pat = true →
    ∀ text, likeMatch (pat ++ ['%']) text = pat.isPrefixOf text
  | [], _, text => by
    rw [List.nil_append, likeMatch_cons, if_pos rfl]
    have h1 : text.tails.any (fun t => likeMatch [] t) = true := by
      induction text with
      | nil => rfl
      | cons c ts ih => rw [List.tails_cons, List.any_cons, ih, Bool.or_true]
    rw [h1]
    cases text <;> rfl
  | p :: ps, h, text => by
    obtain ⟨h1, h2, hbs, h3⟩ := noMeta_cons h
    cases text with
    | nil =>
      rw [List.cons_append, likeMatch_cons, if_neg h1, if_neg hbs]
      rfl
    | cons t ts =>
      rw [List.cons_append, likeMatch_cons, if_neg h1, if_neg hbs]
      show (if p = '_' then likeMatch (ps ++ ['%']) ts
        else p == t && likeMatch (ps ++ ['%']) ts) = _
      rw [if_neg h2, likeMatch_trailing_pct h3 ts]
      rfl

theorem likeMatch_wrapped {pat : List Char} (h : noMeta pat = true) (text : List Char) :
    likeMatch ('%' :: (pat ++ ['%'])) text = containsSub pat text := by
  rw [likeMatch_cons, if_pos rfl, containsSub_eq_tails]
  exact any_congr (fun x _ => likeMatch_trailing_pct h x)

theorem searchWhere_eq_substring {search : String} {u : User}
    (h : noMeta (sqlLower search).data = true) :
    searchWhere search u =
      (containsSub (sqlLower search).data (sqlLower u.Name).data ||
        containsSub (sqlLower search).data (sqlLower u.Email).data) := by
  simp only [searchWhere]
  rw [likeMatch_wrapped h, likeMatch_wrapped h]

theorem Repo.List_eq (s : Store) (q : ListUsersQuery) :
    Repo.List s q =
      ((if q.Limit < 0 then
          (List.insertionSort createdDesc (s.rows.filter (listMatches q))).drop
            q.Offset.toNat
        else
          ((List.insertionSort createdDesc (s.rows.filter (listMatches q))).drop
            q.Offset.toNat).take q.Limit.toNat),
        (s.rows.filter (listMatches q)).length) := by
  have hbase :
      (if q.Search != "" then
        (if q.Status != "" then s.live.filter (fun u => u.Status == q.Status)
         else s.live).filter (searchWhere q.Search)
       else
        (if q.Status != "" then s.live.filter (fun u => u.Status == q.Status)
         else s.live)) = s.rows.filter (listMatches q) := by
    by_cases h1 : q.Status = "" <;> by_cases h2 : q.Search = ""
    · rw [if_neg (by simp [h2]), if_neg (by simp [h1]), Store.live]
      exact List.filter_congr (fun a _ => by simp [listMatches, h1, h2])
    · rw [if_pos (by simp [h2]), if_neg (by simp [h1]), Store.live, List.filter_filter]
      exact List.filter_congr (fun a _ => by
        have he2 : (q.Search == "") = false := by simp [h2]
        simp [listMatches, h1, he2, Bool.and_comm])
    · rw [if_neg (by simp [h2]), if_pos (by simp [h1]), Store.live, List.filter_filter]
      exact List.filter_congr (fun a _ => by
        have he1 : (q.Status == "") = false := by simp [h1]
        simp [listMatches, he1, h2, Bool.and_comm])
    · rw [if_pos (by simp [h2]), if_pos (by simp [h1]), Store.live, List.filter_filter,
        List.filter_filter]
      exact List.filter_congr (fun a _ => by
        have he1 : (q.Status == "") = false := by simp [h1]
        have he2 : (q.Search == "") = false := by simp [h2]
        simp [listMatches, he1, he2, Bool.and_comm, Bool.and_left_comm, Bool.and_assoc])
  simp only [Repo.List]
  rw [hbase]

/-- C6 (counterexample): the repository search filter is a SQL LIKE pattern
built from the raw search string, not a literal substring test: searching
for the underscore character returns a row although neither its name nor
its email contains an underscore, because the underscore is a LIKE
wildcard. -/
theorem C6_counterexample :
    (Repo.List ⟨[⟨1, "x", "y", "active", 0, none⟩], 1⟩ ⟨0, 10, "", "_"⟩).1 =
      [⟨1, "x", "y", "active", 0, none⟩] ∧
    containsSub (sqlLower "_").data (sqlLower "x").data = false ∧
    containsSub (sqlLower "_").data (sqlLower "y").data = false := by
  decide

/-- C6 (amended): for every list query, repository List returns exactly the
offset/limit window of the matching rows: live rows passing the exact-match
status filter and the LIKE-based search filter (which for search strings
free of LIKE meta-characters coincides with case-insensitive substring
containment over name or email), ordered by created_at descending, with the
first offset rows dropped and, for a non-negative limit, at most limit rows
taken (a negative limit emits no LIMIT clause and keeps the whole remaining
window); the returned total counts every matching row independently of
offset and limit. -/
theorem C6_list_contract (s : Store) (q : ListUsersQuery) :
    (∀ u ∈ (Repo.List s q).1,
      u ∈ s.rows ∧ u.DeletedAt = none ∧
      (q.Status ≠ "" → u.Status = q.Status) ∧
      (q.Search ≠ "" → searchWhere q.Search u = true) ∧
      (q.Search ≠ "" → noMeta (sqlLower q.Search).data = true →
        (containsSub (sqlLower q.Search).data (sqlLower u.Name).data ||
          containsSub (sqlLower q.Search).data (sqlLower u.Email).data) = true)) ∧
    List.Sorted createdDesc (Repo.List s q).1 ∧
    (Repo.List s q).1 =
      (if q.Limit < 0 then
        (List.insertionSort createdDesc (s.rows.filter (listMatches q))).drop
          q.Offset.toNat
      else
        ((List.insertionSort createdDesc (s.rows.filter (listMatches q))).drop
          q.Offset.toNat).take q.Limit.toNat) ∧
    (0 ≤ q.Limit → (Repo.List s q).1.length ≤ q.Limit.toNat) ∧
    (Repo.List s q).2 = (s.rows.filter (listMatches q)).length ∧
    (∀ o2 l2 : Int, (Repo.List s { q with Offset := o2, Limit := l2 }).2 =
      (Repo.List s q).2) := by
  have heq := Repo.List_eq s q
  have hsub : List.Sublist (Repo.List s q).1
      (List.insertionSort createdDesc (s.rows.filter (listMatches q))) := by
    rw [heq]
    split
    · exact List.drop_sublist _ _
    · exact (List.take_sublist _ _).trans (List.drop_sublist _ _)
  refine ⟨?_, ?_, ?_, ?_, ?_, ?_⟩
  · intro u hu
    have h2 : u ∈ s.rows.filter (listMatches q) :=
      (List.perm_insertionSort createdDesc _).subset (hsub.subset hu)
    obtain ⟨hmem, hmatch⟩ := List.mem_filter.mp h2
    simp only [listMatches, Bool.and_eq_true, Bool.or_eq_true, beq_iff_eq] at hmatch
    refine ⟨hmem, Option.isNone_iff_eq_none.mp hmatch.1.1, ?_, ?_, ?_⟩
    · intro hne
      rcases hmatch.1.2 with hc | hc
      · exact absurd hc hne
      · exact hc
    · intro hne
      rcases hmatch.2 with hc | hc
      · exact absurd hc hne
      · exact hc
    · intro hne hclean
      rw [← searchWhere_eq_substring hclean]
      rcases hmatch.2 with hc | hc
      · exact absurd hc hne
      · exact hc
  · exact List.Pairwise.sublist hsub (List.sorted_insertionSort createdDesc _)
  · simp only [heq]
  · intro hl
    rw [heq, if_neg (not_lt.mpr hl)]
    exact List.length_take_le _ _
  · simp only [heq]
  · intro o2 l2
    rw [Repo.List_eq s { q with Offset := o2, Limit := l2 }, heq]
    rfl

theorem C6_witness :
    (∀ u ∈ (Repo.List demoStore demoQuery).1,
      u ∈ demoStore.rows ∧ u.DeletedAt = none ∧
      (demoQuery.Status ≠ "" → u.Status = demoQuery.Status) ∧
      (demoQuery.Search ≠ "" → searchWhere demoQuery.Search u = true) ∧
      (demoQuery.Search ≠ "" → noMeta (sqlLower demoQuery.Search).data = true →
        (containsSub (sqlLower demoQuery.Search).data (sqlLower u.Name).data ||
          containsSub (sqlLower demoQuery.Search).data (sqlLower u.Email).data) = true)) ∧
    List.Sorted createdDesc (Repo.List demoStore demoQuery).1 ∧
    (Repo.List demoStore demoQuery).1 =
      (if demoQuery.Limit < 0 then
        (List.insertionSort createdDesc
          (demoStore.rows.filter (listMatches demoQuery))).drop demoQuery.Offset.toNat
      else
        ((List.insertionSort createdDesc
          (demoStore.rows.filter (listMatches demoQuery))).drop
            demoQuery.Offset.toNat).take demoQuery.Limit.toNat) ∧
    (0 ≤ demoQuery.Limit →
      (Repo.List demoStore demoQuery).1.length ≤ demoQuery.Limit.toNat) ∧
    (Repo.List demoStore demoQuery).2 =
      (demoStore.rows.filter (listMatches demoQuery)).length ∧
    (∀ o2 l2 : Int,
      (Repo.List demoStore { demoQuery with Offset := o2, Limit := l2 }).2 =
        (Repo.List demoStore demoQuery).2) :=
  C6_list_contract demoStore demoQuery

end Spindle
